import Mathlib

/-!
Shallow embedding of `src/policy_compliance_tool_windows.py`
(class `PolicyComplianceAnalysisTool`) and proofs about it.

Modelling conventions:
* Python lists become Lean `List`s; `None` becomes `Option.none`.
* A raised `ValueError` becomes `Except.error msg`; since Python raises it
  before any attribute is mutated, an `Except.error` result carries no new
  state — the caller keeps the old one.
* External collaborators (the PyPDF page extractor, the Chroma index
  builder, the Ollama LLM and the retriever) are abstract outcomes supplied
  by an `Env` record, mirroring the `try/except` boundaries of the source.
* The filesystem is an association list from folder paths to directory
  entries; `os.path.join` is modelled as joining with "/".
-/

namespace PCT

/-- A langchain `Document` as produced by `PyPDFLoader`: the source file
path, the 0-based page index, and the page text (`page_content`).
Chunks produced by splitting are `Document`s too (text replaced by the
chunk text, metadata kept), as in langchain. -/
structure Document where
  source : String
  page : Nat
  page_content : String
deriving Repr, DecidableEq

/-- One entry of a folder, as seen by `os.listdir`: its base name, whether
`os.path.isfile` holds, and the outcome of `PyPDFLoader(path).load()` —
`some pages` is the list of page texts, `none` means the loader raised
(the `except` branch of lines 82-83). -/
structure FileEntry where
  filename : String
  is_file : Bool
  pdf_pages : Option (List String)
deriving Repr, DecidableEq

/-- The filesystem: folders that exist, each with its directory listing.
A folder absent from the list does not exist (`os.path.exists` is false). -/
abbrev FS : Type := List (String × List FileEntry)

def fsLookup (fs : FS) (folder : String) : Option (List FileEntry) :=
  List.lookup folder fs

/-- `os.makedirs(folder)`: afterwards the folder exists and is empty. -/
def fsCreate (fs : FS) (folder : String) : FS :=
  (folder, []) :: fs

/-- A Chroma vector store, abstracted to the chunk documents it indexes
(the embedding vectors play no role in the claims). -/
structure VectorStore where
  docs : List Document
deriving Repr, DecidableEq

/-- Outcomes of the external collaborators, one per `try/except` boundary
in the source:
* `embeddings_init` — whether `OllamaEmbeddings(model='llama3.2')`
  succeeds in `__init__` (lines 32-38);
* `chroma_ok` — whether `Chroma.from_documents(chunks, embeddings)`
  succeeds for a given chunk list (lines 145-159);
* `llm_init` — whether `Ollama(model='llama3.2', temperature=0.3)`
  succeeds (lines 167-174);
* `llm_call` — outcome of `(prompt | llm).invoke(...)` on the formatted
  prompt: the report text, or the exception message (lines 290-298);
* `retrieve` — what `store.as_retriever().get_relevant_documents(query)`
  returns (lines 272-277). -/
structure Env where
  embeddings_init : Bool
  chroma_ok : List Document → Bool
  llm_init : Bool
  llm_call : String → Except String String
  retrieve : VectorStore → String → List Document

/-- The mutable state of one `PolicyComplianceAnalysisTool` instance
(lines 20-38): the two configured folders, the two separate document
collections, the two vector stores, and the embeddings handle
(`none` when `OllamaEmbeddings` could not be initialized). -/
structure PolicyComplianceAnalysisTool where
  policy_documents_folder : String
  regulatory_documents_folder : String
  policy_documents : List Document
  regulatory_documents : List Document
  policy_vector_store : Option VectorStore
  regulatory_vector_store : Option VectorStore
  embeddings : Option Unit
deriving Repr, DecidableEq

abbrev Tool := PolicyComplianceAnalysisTool

/-- `__init__(policy_documents_folder, regulatory_documents_folder)`
(lines 13-38). -/
def Tool.init (env : Env) (pf rf : String) : Tool where
  policy_documents_folder := pf
  regulatory_documents_folder := rf
  policy_documents := []
  regulatory_documents := []
  policy_vector_store := none
  regulatory_vector_store := none
  embeddings := if env.embeddings_init then some () else none

/-- The `ValueError` message of lines 55 / 102 / 135. -/
def valueErrorMsg : String := "Document type must be 'policy' or 'regulatory'"

/-- The documents `PyPDFLoader(folder/filename).load()` yields for a file
whose pages are `pages`: one `Document` per page, tagged with the file
path and the 0-based page index. -/
def entryDocs (folder : String) (e : FileEntry) (pages : List String) :
    List Document :=
  pages.enum.map (fun pi =>
    { source := folder ++ "/" ++ e.filename
      page := pi.1
      page_content := pi.2 })

/-- `filename.lower()` (line 74), character-wise so that concrete runs
reduce definitionally. -/
def lowerName (s : String) : String := ⟨s.data.map Char.toLower⟩

/-- `filename.lower().endswith('.pdf')` (line 74). -/
def hasPdfExt (s : String) : Bool :=
  List.isSuffixOf ".pdf".data (lowerName s).data

/-- The body of the `for filename in os.listdir(...)` loop of
`load_documents` (lines 69-85): process entries in listing order; a file
is handled only when `os.path.isfile` holds and its lowercased name ends
in ".pdf"; a loader exception (`pdf_pages = none`) skips the file without
aborting; each success appends its page documents and bumps `pdf_count`. -/
def process_entries (folder : String) : List FileEntry → List Document × Nat
  | [] => ([], 0)
  | e :: rest =>
    if e.is_file && hasPdfExt e.filename then
      match e.pdf_pages with
      | some pages =>
        let r := process_entries folder rest
        (entryDocs folder e pages ++ r.1, r.2 + 1)
      | none => process_entries folder rest
    else process_entries folder rest

/-- The folder selected by `load_documents` for a category
(lines 48-53), with the category given as `isPolicy`. -/
def Tool.folderOf (st : Tool) (isPolicy : Bool) : String :=
  if isPolicy then st.policy_documents_folder else st.regulatory_documents_folder

/-- `load_documents` after category dispatch (lines 57-85), for a valid
category (`isPolicy`): the collection is cleared, then, if the folder is
absent, it is created and the count is 0 (lines 61-66); otherwise the
listing is processed and the collection replaced by the loaded documents.
Returns the updated filesystem, the updated tool state and `pdf_count`. -/
def load_total (fs : FS) (st : Tool) (isPolicy : Bool) : FS × Tool × Nat :=
  let folder := st.folderOf isPolicy
  match fsLookup fs folder with
  | none =>
    -- collection was cleared (line 58) before the existence check; the
    -- early return leaves it empty
    if isPolicy then
      (fsCreate fs folder, { st with policy_documents := [] }, 0)
    else
      (fsCreate fs folder, { st with regulatory_documents := [] }, 0)
  | some entries =>
    let r := process_entries folder entries
    if isPolicy then
      (fs, { st with policy_documents := r.1 }, r.2)
    else
      (fs, { st with regulatory_documents := r.1 }, r.2)

/-- `load_documents(document_type)` (lines 40-85).  An invalid
`document_type` raises `ValueError` (line 55) before any state is touched. -/
def load_documents (fs : FS) (st : Tool) (document_type : String) :
    Except String (FS × Tool × Nat) :=
  if document_type = "policy" then .ok (load_total fs st true)
  else if document_type = "regulatory" then .ok (load_total fs st false)
  else .error valueErrorMsg

/-- Modelled from the spec: the chunking algorithm itself lives in
langchain's `RecursiveCharacterTextSplitter`, which is not part of this
repository; this models the spec's words — a "concatenation-aware sliding
window" where "text is split into segments of at most `chunk_size`
characters with `chunk_overlap` characters repeated at the start of each
subsequent segment".  `s + 1` is the distance between the starts of two
consecutive segments; the `fuel` argument only forces structural
termination (each step strictly shortens the text, so `fuel = t.length`
is always enough — see `slidingChunks_eq`). -/
def slidingChunksGo (s C : Nat) : Nat → List Char → List (List Char)
  | 0, t => [t]
  | fuel + 1, t =>
    if t.length ≤ C then [t]
    else t.take C :: slidingChunksGo s C fuel (t.drop (s + 1))

/-- See `slidingChunksGo`. -/
def slidingChunks (s C : Nat) (t : List Char) : List (List Char) :=
  slidingChunksGo s C t.length t

/-- Modelled from the spec (see `slidingChunks`): split one text into
segments of at most `chunk_size` characters, each subsequent segment
starting with the final `chunk_overlap` characters of the previous one —
so consecutive segment starts are `chunk_size - chunk_overlap` apart. -/
def splitText (chunk_size chunk_overlap : Nat) (t : List Char) :
    List (List Char) :=
  slidingChunks (chunk_size - chunk_overlap - 1) chunk_size t

/-- One document's chunks: langchain's splitter keeps the document's
metadata on each chunk and replaces the text by the chunk text. -/
def splitDoc (chunk_size chunk_overlap : Nat) (d : Document) : List Document :=
  (splitText chunk_size chunk_overlap d.page_content.data).map
    (fun cs => { d with page_content := String.mk cs })

/-- `split_documents` after category dispatch (lines 104-115): an empty
collection yields `[]` (lines 104-106); otherwise every document is split
and the chunks concatenated in document order. -/
def split_core (documents : List Document) (chunk_size chunk_overlap : Nat) :
    List Document :=
  if documents = [] then []
  else documents.flatMap (splitDoc chunk_size chunk_overlap)

/-- `split_documents(document_type, chunk_size=1000, chunk_overlap=200)`
(lines 87-115); the Python defaults are passed explicitly by callers of
this model.  An invalid `document_type` raises `ValueError` (line 102). -/
def split_documents (st : Tool) (document_type : String)
    (chunk_size chunk_overlap : Nat) : Except String (List Document) :=
  if document_type = "policy" then
    .ok (split_core st.policy_documents chunk_size chunk_overlap)
  else if document_type = "regulatory" then
    .ok (split_core st.regulatory_documents chunk_size chunk_overlap)
  else .error valueErrorMsg

/-- The common tail of `create_vector_store` (lines 137-159): default the
chunks by splitting the selected collection with the default parameters
(lines 138-139), return `None` on an empty chunk list (lines 141-143),
then try `Chroma.from_documents`: on success store the result in the
selected attribute and return it, on an exception return `None`
(lines 145-159). -/
def create_core (env : Env) (st : Tool) (documents : List Document)
    (setStore : Tool → VectorStore → Tool) (chunksArg : Option (List Document)) :
    Tool × Option VectorStore :=
  let chunks := match chunksArg with
    | none => split_core documents 1000 200
    | some cs => cs
  if chunks = [] then (st, none)
  else if env.chroma_ok chunks then
    let vs : VectorStore := ⟨chunks⟩
    (setStore st vs, some vs)
  else (st, none)

/-- `create_vector_store` after category dispatch, for a valid category. -/
def create_vector_store_total (env : Env) (st : Tool) (isPolicy : Bool)
    (chunksArg : Option (List Document)) : Tool × Option VectorStore :=
  if isPolicy then
    create_core env st st.policy_documents
      (fun s v => { s with policy_vector_store := some v }) chunksArg
  else
    create_core env st st.regulatory_documents
      (fun s v => { s with regulatory_vector_store := some v }) chunksArg

/-- `create_vector_store` for a valid category, embeddings check
(lines 125-127) included: with no embeddings handle the call returns
`None` and changes nothing. -/
def create_vector_store_valid (env : Env) (st : Tool) (isPolicy : Bool)
    (chunksArg : Option (List Document)) : Tool × Option VectorStore :=
  if st.embeddings.isNone then (st, none)
  else create_vector_store_total env st isPolicy chunksArg

/-- `create_vector_store(document_type, chunks=None)` (lines 117-159).
The `self.embeddings is None` check (lines 125-127) comes before the
category dispatch (lines 130-135), so with no embeddings the call returns
`None` even for an invalid category; otherwise an invalid category raises
`ValueError` before any state is touched. -/
def create_vector_store (env : Env) (st : Tool) (document_type : String)
    (chunksArg : Option (List Document)) :
    Except String (Tool × Option VectorStore) :=
  if st.embeddings.isNone then .ok (st, none)
  else if document_type = "policy" then
    .ok (create_vector_store_total env st true chunksArg)
  else if document_type = "regulatory" then
    .ok (create_vector_store_total env st false chunksArg)
  else .error valueErrorMsg

/-- The text of `compliance_template` (lines 177-240) before the
`regulatory_context` slot. -/
def tmpl_pre : String :=
  "\nYou are an expert Compliance Analyst with extensive experience in regulatory compliance and policy alignment. Your role is to meticulously analyze and compare the institution's internal policies against government-issued regulatory documents. These documents may include formal regulations, guidelines, or informal releases such as press statements. You are methodical, detail-oriented, and focused on providing actionable recommendations to enhance compliance.\n\nInstructions for Analysis:\n\n1. Benchmarking Document\n- Treat all government regulatory documents (e.g., regulations, press releases, guidelines) as potential benchmarks.\n- When analyzing press releases or informal documents, focus on identifying implied or explicitly stated expectations relevant to institutional policies.\n\nRegulatory Context: "

/-- The text of `compliance_template` between the two slots. -/
def tmpl_mid : String :=
  "\nInstitutional Policy Context: "

/-- The text of `compliance_template` after the `policy_context` slot. -/
def tmpl_post : String :=
  "\n\nAnalysis Requirements:\na) Benchmark each government regulatory document section against institutional policies\nb) Identify compliance status:\n   - Fully Compliant\n   - Partially Compliant\n   - Non-Compliant\n   - Policy Gap\n\nc) For press releases, focus on key statements implying compliance requirements\n\nHandling Ambiguity:\n- Clearly note the source of benchmarks\n- Flag ambiguous or non-standardized requirements\n- Provide interpretation context\n\nOutput Structure:\nI. Document Type (Regulation/Guideline/Press Release)\nII.Reference: Include the title, section, or specific statement from the government document.\nIII.Reference: Include the title, section, or specific statement from the Policy Sectiondocument\nIV. Detailed Discrepancy Analysis\nV. Actionable Recommendations\nVI. Priority Level (High/Medium/Low)\n\nPrioritization Criteria:\n- Relevance of policy document\n- Severity of non-compliance implications\n- Ease of remediation\n\nEthical Considerations:\n- Maintain confidentiality of institutional data\n- Ethically handle less formal policy benchmarks\n- Treat press release expectations as advisory unless explicitly mandated\n\nReporting Guidelines:\n1. Executive Summary\n   - Highlight critical compliance gaps\n   - Emphasize potential operational impact\n   - Focus on high-priority issues\n\n2. Key Findings\n   - Summarize discrepancies\n   - Include compliance area \n   - Note priority level with \n   - Provide brief recommendations\n\n3. Conclusion and Recommendations\n   - Summarize actionable next steps\n   - Emphasize urgency and feasibility\n   - Limit report to 500 words\n\nKey Objective: Provide precise and actionable insights to align institutional policies with diverse government-issued regulatory benchmarks, enhancing compliance, adaptability, and operational efficiency.\n"

/-- The full `compliance_template` string (lines 177-240): the fixed text
with exactly the two named slots. -/
def compliance_template : String :=
  tmpl_pre ++ "{regulatory_context}" ++ tmpl_mid ++ "{policy_context}" ++ tmpl_post

/-- A langchain `PromptTemplate` (lines 243-246). -/
structure PromptTemplate where
  template : String
  input_variables : List String
deriving Repr, DecidableEq

/-- The prompt object built at lines 243-246. -/
def compliancePrompt : PromptTemplate where
  template := compliance_template
  input_variables := ["regulatory_context", "policy_context"]

/-- `setup_compliance_analysis_chain` (lines 161-248): if the `Ollama`
constructor raises, return `(None, None)`; otherwise return the prompt
template and the LLM handle (the handle's behaviour lives in
`Env.llm_call`). -/
def setup_compliance_analysis_chain (env : Env) :
    Option PromptTemplate × Option Unit :=
  if env.llm_init then (some compliancePrompt, some ()) else (none, none)

/-- Substituting the two context strings into `compliance_template`, as
`(prompt | llm).invoke({...})` does in one pass (lines 291-295). -/
def formatPrompt (regulatory_context policy_context : String) : String :=
  tmpl_pre ++ regulatory_context ++ tmpl_mid ++ policy_context ++ tmpl_post

/-- The error string returned at line 269. -/
def errNoStores : String :=
  "Error: Cannot generate compliance report. Please ensure both policy and regulatory documents are loaded and vector stores are created."

/-- The error string returned at line 287. -/
def errChain : String :=
  "Error: Could not initialize analysis chain. Please ensure Ollama is running."

/-- The prefix of the error string returned at line 298. -/
def errGenPrefix : String := "Error generating compliance report: "

/-- The lazy-rebuild prelude of `generate_compliance_report`
(lines 256-265): for each side whose vector store is missing, re-run
`load_documents` and `create_vector_store` with the literal category. -/
def genRebuild (env : Env) (fs : FS) (st : Tool) : FS × Tool :=
  let a :=
    if st.policy_vector_store.isNone then
      let l := load_total fs st true
      let c := create_vector_store_valid env l.2.1 true none
      (l.1, c.1)
    else (fs, st)
  if a.2.regulatory_vector_store.isNone then
    let l := load_total a.1 a.2 false
    let c := create_vector_store_valid env l.2.1 false none
    (l.1, c.1)
  else a

/-- The read-only tail of `generate_compliance_report` (lines 267-298):
if a store is still missing, the fixed error string (line 269); else
retrieve from both stores, space-join the chunk texts per category
(lines 271-281), set up the chain (lines 283-287), and invoke the model,
converting an exception to an error string (lines 289-298). -/
def generate_report_text (env : Env) (st : Tool) : String :=
  match st.policy_vector_store, st.regulatory_vector_store with
  | some pvs, some rvs =>
    let policy_docs := env.retrieve pvs "All policy documents"
    let regulatory_docs := env.retrieve rvs "All regulatory documents"
    let policy_context := " ".intercalate (policy_docs.map Document.page_content)
    let regulatory_context :=
      " ".intercalate (regulatory_docs.map Document.page_content)
    match setup_compliance_analysis_chain env with
    | (some _, some _) =>
      match env.llm_call (formatPrompt regulatory_context policy_context) with
      | .ok report => report
      | .error e => errGenPrefix ++ e
    | _ => errChain
  | _, _ => errNoStores

/-- `generate_compliance_report` (lines 250-298): the lazy rebuilds, then
the report text; the state is not mutated after the rebuilds. -/
def generate_compliance_report (env : Env) (fs : FS) (st : Tool) :
    FS × Tool × String :=
  let b := genRebuild env fs st
  (b.1, b.2, generate_report_text env b.2)

/-- The public operations of one tool instance, with `chunks` defaulted as
at every call site in the source. -/
inductive Op where
  | load (document_type : String)
  | split (document_type : String) (chunk_size chunk_overlap : Nat)
  | create (document_type : String)
  | report
deriving Repr, DecidableEq

/-- Run one operation.  A raised `ValueError` propagates to the caller and
leaves the instance state unchanged (the source raises before mutating). -/
def execOp (env : Env) (p : FS × Tool) (op : Op) : FS × Tool :=
  match op with
  | .load dt =>
    match load_documents p.1 p.2 dt with
    | .ok r => (r.1, r.2.1)
    | .error _ => p
  | .split dt c o =>
    match split_documents p.2 dt c o with
    | _ => p
  | .create dt =>
    match create_vector_store env p.2 dt none with
    | .ok r => (p.1, r.1)
    | .error _ => p
  | .report =>
    let r := generate_compliance_report env p.1 p.2
    (r.1, r.2.1)

/-- Run a sequence of operations. -/
def run (env : Env) (p : FS × Tool) (ops : List Op) : FS × Tool :=
  ops.foldl (execOp env) p

/-! ### Provenance predicates for the separation invariant -/

/-- `d` was loaded from `folder`: its source path is `folder`, the
separator, and a separator-free base name (as `os.listdir` yields). -/
def inFolder (folder : String) (d : Document) : Prop :=
  ∃ fn : String, '/' ∉ fn.data ∧ d.source = folder ++ "/" ++ fn

/-- Every chunk indexed by the store (if any) comes from `folder`. -/
def storeInFolder (folder : String) : Option VectorStore → Prop
  | none => True
  | some vs => ∀ d ∈ vs.docs, inFolder folder d

/-- Directory listings hold base names only (no separator), as
`os.listdir` guarantees. -/
def FSok (fs : FS) : Prop :=
  ∀ p ∈ fs, ∀ e ∈ p.2, '/' ∉ e.filename.data

/-- The separation invariant of one tool instance configured with the
folders `pf` and `rf`: each collection and each index holds only
documents loaded from its own category's folder. -/
def Inv (pf rf : String) (fs : FS) (st : Tool) : Prop :=
  FSok fs ∧
  st.policy_documents_folder = pf ∧
  st.regulatory_documents_folder = rf ∧
  (∀ d ∈ st.policy_documents, inFolder pf d) ∧
  (∀ d ∈ st.regulatory_documents, inFolder rf d) ∧
  storeInFolder pf st.policy_vector_store ∧
  storeInFolder rf st.regulatory_vector_store

/-! ### Sample data, used by the concrete witnesses -/

def sampleEnv : Env where
  embeddings_init := true
  chroma_ok := fun _ => true
  llm_init := true
  llm_call := fun _ => .ok "sample report"
  retrieve := fun vs _ => vs.docs

def sampleTool : Tool := Tool.init sampleEnv "pol" "reg"

/-- A policy folder with a two-page PDF, a PDF whose extraction fails, a
non-PDF file and a subdirectory; a regulatory folder with one PDF. -/
def sampleFS : FS :=
  [("pol", [⟨"t.pdf", true, some ["p1", "p2"]⟩,
            ⟨"bad.pdf", true, none⟩,
            ⟨"notes.txt", true, some ["zz"]⟩,
            ⟨"sub", false, none⟩]),
   ("reg", [⟨"r.pdf", true, some ["gamma"]⟩])]

/-- `sampleTool` after `load_documents('policy')` on `sampleFS`: the good
PDF contributes one record per page; the corrupt PDF, the non-PDF file
and the subdirectory are skipped. -/
def toolLoaded : Tool :=
  { sampleTool with
      policy_documents := [⟨"pol/t.pdf", 0, "p1"⟩, ⟨"pol/t.pdf", 1, "p2"⟩] }

/-- A tool instance whose `OllamaEmbeddings` initialization failed. -/
def toolNoEmbeddings : Tool := { sampleTool with embeddings := none }

/-- Both configured folders exist and are empty. -/
def emptyFS : FS := [("pol", []), ("reg", [])]

/-- Policy index present, regulatory index missing. -/
def regMissingTool : Tool :=
  { sampleTool with policy_vector_store := some ⟨[⟨"pol/t.pdf", 0, "p1"⟩]⟩ }

/-- Regulatory index present, policy index missing. -/
def polMissingTool : Tool :=
  { sampleTool with regulatory_vector_store := some ⟨[⟨"reg/r.pdf", 0, "gamma"⟩]⟩ }

/-- Both indexes present. -/
def readyTool : Tool :=
  { sampleTool with
      policy_vector_store := some ⟨[⟨"pol/t.pdf", 0, "p1"⟩]⟩
      regulatory_vector_store := some ⟨[⟨"reg/r.pdf", 0, "gamma"⟩]⟩ }

/-- The operation sequence `main` performs. -/
def sampleOps : List Op :=
  [Op.load "policy", Op.create "policy", Op.load "regulatory",
   Op.create "regulatory", Op.report]

/-- `toolLoaded` with its policy index built from its collection. -/
def toolIndexed : Tool :=
  { toolLoaded with policy_vector_store := some ⟨toolLoaded.policy_documents⟩ }

/-- One ten-character policy document, to exercise the splitter. -/
def splitSampleTool : Tool :=
  { sampleTool with policy_documents := [⟨"pol/t.pdf", 0, "abcdefghij"⟩] }

/-- An environment whose generation model call raises. -/
def envLLMFail : Env := { sampleEnv with llm_call := fun _ => .error "boom" }

/-- An environment whose `Ollama` LLM constructor raises. -/
def envNoLLM : Env := { sampleEnv with llm_init := false }

/-! ### The directory loop as a closed formula -/

/-- The entries `load_documents` actually loads: regular files whose
lowercased name ends in ".pdf" and whose extraction succeeds. -/
def goodEntry (e : FileEntry) : Bool :=
  e.is_file && hasPdfExt e.filename && e.pdf_pages.isSome

/-- The documents one good entry contributes. -/
def docsOfEntry (folder : String) (e : FileEntry) : List Document :=
  match e.pdf_pages with
  | some pages => entryDocs folder e pages
  | none => []

/-- The collection `split_documents` / `create_vector_store` select for a
category (lines 97-100 / 130-133). -/
def selectedDocs (st : Tool) (dt : String) : List Document :=
  if dt = "policy" then st.policy_documents else st.regulatory_documents

/-- The chunk list `create_vector_store` works on: the argument, or the
default split of the selected collection (lines 138-139). -/
def effectiveChunks (st : Tool) (dt : String)
    (chunksArg : Option (List Document)) : List Document :=
  chunksArg.getD (split_core (selectedDocs st dt) 1000 200)

/-- The space-joined policy context of lines 276 and 280. -/
def retrievedPolicyContext (env : Env) (pvs : VectorStore) : String :=
  " ".intercalate
    ((env.retrieve pvs "All policy documents").map Document.page_content)

/-- The space-joined regulatory context of lines 277 and 281. -/
def retrievedRegulatoryContext (env : Env) (rvs : VectorStore) : String :=
  " ".intercalate
    ((env.retrieve rvs "All regulatory documents").map Document.page_content)

theorem process_entries_eq (folder : String) (l : List FileEntry) :
    process_entries folder l =
      ((l.filter goodEntry).flatMap (docsOfEntry folder),
       (l.filter goodEntry).length) := by
  induction l with
  | nil => rfl
  | cons e rest ih =>
    by_cases h1 : (e.is_file && hasPdfExt e.filename) = true
    · cases hp : e.pdf_pages with
      | some pages =>
        simp [process_entries, goodEntry, docsOfEntry, h1, hp, ih]
      | none =>
        simp [process_entries, goodEntry, h1, hp, ih]
    · simp [process_entries, goodEntry, h1, ih]

/-- `claim_C7` helper: looking a folder up right after creating it. -/
theorem fsLookup_fsCreate (fs : FS) (folder : String) :
    fsLookup (fsCreate fs folder) folder = some [] := by
  simp [fsLookup, fsCreate, List.lookup]

/-- C7: for a category whose configured folder does not exist,
`load_documents` creates the folder and returns 0 — no exception, and the
(cleared) document collection is left empty, the rest of the state
untouched. -/
theorem claim_C7 (fs : FS) (st : Tool) :
    (fsLookup fs st.policy_documents_folder = none →
      load_documents fs st "policy" =
        .ok (fsCreate fs st.policy_documents_folder,
             { st with policy_documents := [] }, 0)) ∧
    (fsLookup fs st.regulatory_documents_folder = none →
      load_documents fs st "regulatory" =
        .ok (fsCreate fs st.regulatory_documents_folder,
             { st with regulatory_documents := [] }, 0)) := by
  constructor <;> intro h <;>
    simp [load_documents, load_total, Tool.folderOf, h]

theorem claim_C7_witness :
    fsLookup ([] : FS) sampleTool.policy_documents_folder = none ∧
    load_documents [] sampleTool "policy" =
      .ok (fsCreate [] sampleTool.policy_documents_folder,
           { sampleTool with policy_documents := [] }, 0) :=
  ⟨rfl, (claim_C7 [] sampleTool).1 rfl⟩

/-- `claim_C8` helper: loading a second time from the filesystem and state
a first load produced changes nothing. -/
theorem load_total_idem (fs : FS) (st : Tool) (b : Bool) :
    load_total (load_total fs st b).1 (load_total fs st b).2.1 b =
      load_total fs st b := by
  cases b
  · cases h : fsLookup fs st.regulatory_documents_folder with
    | none =>
      cases st
      simp_all [load_total, Tool.folderOf, fsLookup_fsCreate, process_entries]
    | some entries =>
      cases st
      simp_all [load_total, Tool.folderOf]
  · cases h : fsLookup fs st.policy_documents_folder with
    | none =>
      cases st
      simp_all [load_total, Tool.folderOf, fsLookup_fsCreate, process_entries]
    | some entries =>
      cases st
      simp_all [load_total, Tool.folderOf]

/-- C8: `load_documents` is idempotent — calling it twice in a row for the
same category on the same (resulting) filesystem yields the same
collection, the same count and the same filesystem: fresh replacement,
not duplication. -/
theorem claim_C8 (fs : FS) (st : Tool) (dt : String)
    (fs1 fs2 : FS) (st1 st2 : Tool) (n1 n2 : Nat)
    (h1 : load_documents fs st dt = .ok (fs1, st1, n1))
    (h2 : load_documents fs1 st1 dt = .ok (fs2, st2, n2)) :
    st2 = st1 ∧ n2 = n1 ∧ fs2 = fs1 ∧
    st2.policy_documents.length = st1.policy_documents.length ∧
    st2.regulatory_documents.length = st1.regulatory_documents.length := by
  unfold load_documents at h1 h2
  by_cases hp : dt = "policy"
  · subst hp
    rw [if_pos rfl] at h1 h2
    injection h1 with h1
    injection h2 with h2
    have hi := load_total_idem fs st true
    rw [h1] at hi
    have h12 := h2.symm.trans hi
    rw [Prod.ext_iff, Prod.ext_iff] at h12
    obtain ⟨hfs, hst, hn⟩ := h12
    simp_all
  · by_cases hr : dt = "regulatory"
    · subst hr
      rw [if_neg hp] at h1 h2  -- hmm hp : ¬ "regulatory" = "policy"
      rw [if_pos rfl] at h1 h2
      injection h1 with h1
      injection h2 with h2
      have hi := load_total_idem fs st false
      rw [h1] at hi
      have h12 := h2.symm.trans hi
      rw [Prod.ext_iff, Prod.ext_iff] at h12
      obtain ⟨hfs, hst, hn⟩ := h12
      simp_all
    · rw [if_neg hp, if_neg hr] at h1
      exact absurd h1 (by simp)

theorem claim_C8_witness :
    load_documents sampleFS sampleTool "policy" = .ok (sampleFS, toolLoaded, 1) ∧
    load_documents sampleFS toolLoaded "policy" = .ok (sampleFS, toolLoaded, 1) ∧
    (toolLoaded = toolLoaded ∧ (1 : Nat) = 1 ∧ sampleFS = sampleFS ∧
     toolLoaded.policy_documents.length = toolLoaded.policy_documents.length ∧
     toolLoaded.regulatory_documents.length = toolLoaded.regulatory_documents.length) :=
  ⟨rfl, rfl,
   claim_C8 sampleFS sampleTool "policy" sampleFS sampleFS toolLoaded toolLoaded
     1 1 rfl rfl⟩

/-- C3: for an existing folder, `load_documents` returns the number of
source files successfully processed — one per good entry, independent of
how many page records each file produces — the collection becomes the
concatenation of the page documents of exactly the good entries, and a
file whose extraction fails is skipped without aborting the batch and is
excluded from the count. -/
theorem claim_C3 (fs : FS) (st : Tool) (entries : List FileEntry) :
    (fsLookup fs st.policy_documents_folder = some entries →
      load_documents fs st "policy" =
        .ok (fs,
          { st with policy_documents :=
              ((entries.filter goodEntry).flatMap
                (docsOfEntry st.policy_documents_folder)) },
          (entries.filter goodEntry).length)) ∧
    (fsLookup fs st.regulatory_documents_folder = some entries →
      load_documents fs st "regulatory" =
        .ok (fs,
          { st with regulatory_documents :=
              ((entries.filter goodEntry).flatMap
                (docsOfEntry st.regulatory_documents_folder)) },
          (entries.filter goodEntry).length)) := by
  constructor <;> intro h <;>
    simp [load_documents, load_total, Tool.folderOf, h, process_entries_eq]

theorem claim_C3_witness :
    fsLookup sampleFS sampleTool.policy_documents_folder =
      some [⟨"t.pdf", true, some ["p1", "p2"]⟩,
            ⟨"bad.pdf", true, none⟩,
            ⟨"notes.txt", true, some ["zz"]⟩,
            ⟨"sub", false, none⟩] ∧
    load_documents sampleFS sampleTool "policy" = .ok (sampleFS, toolLoaded, 1) :=
  ⟨rfl,
   (claim_C3 sampleFS sampleTool
     [⟨"t.pdf", true, some ["p1", "p2"]⟩,
      ⟨"bad.pdf", true, none⟩,
      ⟨"notes.txt", true, some ["zz"]⟩,
      ⟨"sub", false, none⟩]).1 rfl⟩

/-- `claim_C5` / `claim_C2` helper: full case analysis of
`create_vector_store_valid`. -/
theorem create_valid_cases (env : Env) (st : Tool) (dt : String) (b : Bool)
    (hb : dt = "policy" ∧ b = true ∨ dt = "regulatory" ∧ b = false)
    (chunksArg : Option (List Document)) :
    (st.embeddings = none →
      create_vector_store_valid env st b chunksArg = (st, none)) ∧
    (st.embeddings ≠ none → effectiveChunks st dt chunksArg = [] →
      create_vector_store_valid env st b chunksArg = (st, none)) ∧
    (st.embeddings ≠ none → effectiveChunks st dt chunksArg ≠ [] →
      env.chroma_ok (effectiveChunks st dt chunksArg) = false →
      create_vector_store_valid env st b chunksArg = (st, none)) ∧
    (st.embeddings ≠ none → effectiveChunks st dt chunksArg ≠ [] →
      env.chroma_ok (effectiveChunks st dt chunksArg) = true →
      create_vector_store_valid env st b chunksArg =
        ((if b then
            { st with
                policy_vector_store := some ⟨effectiveChunks st dt chunksArg⟩ }
          else
            { st with
                regulatory_vector_store := some ⟨effectiveChunks st dt chunksArg⟩ }),
         some ⟨effectiveChunks st dt chunksArg⟩)) := by
  rcases hb with ⟨hdt, hbv⟩ | ⟨hdt, hbv⟩ <;> subst hdt <;> subst hbv <;>
    refine ⟨fun hemb => ?_, fun hemb hch => ?_, fun hemb hch hok => ?_,
      fun hemb hch hok => ?_⟩ <;>
    cases chunksArg <;>
    simp_all [create_vector_store_valid, create_vector_store_total, create_core,
      effectiveChunks, selectedDocs, Option.isNone_iff_eq_none]

/-- `claim_C5` / `claim_C9` helper: for a valid category,
`create_vector_store` succeeds with the value of
`create_vector_store_valid`. -/
theorem create_vector_store_ok (env : Env) (st : Tool)
    (chunksArg : Option (List Document)) :
    create_vector_store env st "policy" chunksArg =
      .ok (create_vector_store_valid env st true chunksArg) ∧
    create_vector_store env st "regulatory" chunksArg =
      .ok (create_vector_store_valid env st false chunksArg) := by
  constructor <;> cases hemb : st.embeddings <;>
    simp [create_vector_store, create_vector_store_valid, hemb]

/-- C5: for a valid category, `create_vector_store` never raises: it
returns `None` exactly when the embedding backend is unavailable, when
the (possibly defaulted) chunk sequence is empty, or when the Chroma
build fails; and a returned index is exactly the one built over the
effective chunk list — in particular never an empty-but-valid index. -/
theorem claim_C5 (env : Env) (st : Tool) (dt : String)
    (chunksArg : Option (List Document))
    (hdt : dt = "policy" ∨ dt = "regulatory") :
    ∃ st' r, create_vector_store env st dt chunksArg = .ok (st', r) ∧
      (r = none ↔
        st.embeddings = none ∨ effectiveChunks st dt chunksArg = [] ∨
        env.chroma_ok (effectiveChunks st dt chunksArg) = false) ∧
      (∀ vs, r = some vs →
        vs.docs = effectiveChunks st dt chunksArg ∧ vs.docs ≠ [] ∧
        env.chroma_ok (effectiveChunks st dt chunksArg) = true ∧
        st.embeddings ≠ none) := by
  have hcases := fun b hb =>
    create_valid_cases env st dt b hb chunksArg
  rcases hdt with h | h <;> subst h
  · obtain ⟨he, h2, h3, h4⟩ := hcases true (Or.inl ⟨rfl, rfl⟩)
    have hval := (create_vector_store_ok env st chunksArg).1
    cases hemb : st.embeddings with
    | none =>
      refine ⟨st, none, ?_, by simp [hemb], by simp⟩
      rw [hval, he hemb]
    | some u =>
      have hemb' : st.embeddings ≠ none := by simp [hemb]
      by_cases hch : effectiveChunks st "policy" chunksArg = []
      · refine ⟨st, none, ?_, by simp [hch], by simp⟩
        rw [hval, h2 hemb' hch]
      · cases hok : env.chroma_ok (effectiveChunks st "policy" chunksArg) with
        | false =>
          refine ⟨st, none, ?_, by simp [hok], by simp⟩
          rw [hval, h3 hemb' hch hok]
        | true =>
          refine ⟨{ st with
              policy_vector_store := some ⟨effectiveChunks st "policy" chunksArg⟩ },
            some ⟨effectiveChunks st "policy" chunksArg⟩, ?_, ?_, ?_⟩
          · rw [hval, h4 hemb' hch hok]
            rfl
          · simp [hemb, hch, hok]
          · intro vs hvs
            cases hvs
            exact ⟨rfl, hch, rfl, Option.some_ne_none u⟩
  · obtain ⟨he, h2, h3, h4⟩ := hcases false (Or.inr ⟨rfl, rfl⟩)
    have hval := (create_vector_store_ok env st chunksArg).2
    cases hemb : st.embeddings with
    | none =>
      refine ⟨st, none, ?_, by simp [hemb], by simp⟩
      rw [hval, he hemb]
    | some u =>
      have hemb' : st.embeddings ≠ none := by simp [hemb]
      by_cases hch : effectiveChunks st "regulatory" chunksArg = []
      · refine ⟨st, none, ?_, by simp [hch], by simp⟩
        rw [hval, h2 hemb' hch]
      · cases hok : env.chroma_ok (effectiveChunks st "regulatory" chunksArg) with
        | false =>
          refine ⟨st, none, ?_, by simp [hok], by simp⟩
          rw [hval, h3 hemb' hch hok]
        | true =>
          refine ⟨{ st with
              regulatory_vector_store := some ⟨effectiveChunks st "regulatory" chunksArg⟩ },
            some ⟨effectiveChunks st "regulatory" chunksArg⟩, ?_, ?_, ?_⟩
          · rw [hval, h4 hemb' hch hok]
            rfl
          · simp [hemb, hch, hok]
          · intro vs hvs
            cases hvs
            exact ⟨rfl, hch, rfl, Option.some_ne_none u⟩

theorem claim_C5_witness :
    ("policy" = "policy" ∨ "policy" = "regulatory") ∧
    ∃ st' r, create_vector_store sampleEnv toolLoaded "policy" none = .ok (st', r) ∧
      (r = none ↔
        toolLoaded.embeddings = none ∨ effectiveChunks toolLoaded "policy" none = [] ∨
        sampleEnv.chroma_ok (effectiveChunks toolLoaded "policy" none) = false) ∧
      (∀ vs, r = some vs →
        vs.docs = effectiveChunks toolLoaded "policy" none ∧ vs.docs ≠ [] ∧
        sampleEnv.chroma_ok (effectiveChunks toolLoaded "policy" none) = true ∧
        toolLoaded.embeddings ≠ none) :=
  ⟨Or.inl rfl, claim_C5 sampleEnv toolLoaded "policy" none (Or.inl rfl)⟩

/-- C6: when both indexes are present, `generate_compliance_report`
converts any generation failure into a descriptive error string returned
as the report: a failing `Ollama` constructor yields the fixed chain
error string, and an exception from the model call yields
"Error generating compliance report: " followed by the exception text.
The model function is total, so no exception propagates. -/
theorem claim_C6 (env : Env) (fs : FS) (st : Tool) (pvs rvs : VectorStore)
    (hp : st.policy_vector_store = some pvs)
    (hr : st.regulatory_vector_store = some rvs) :
    (env.llm_init = false →
      (generate_compliance_report env fs st).2.2 = errChain) ∧
    (∀ e, env.llm_init = true →
      env.llm_call (formatPrompt (retrievedRegulatoryContext env rvs)
        (retrievedPolicyContext env pvs)) = .error e →
      (generate_compliance_report env fs st).2.2 = errGenPrefix ++ e) := by
  constructor
  · intro hinit
    simp [generate_compliance_report, genRebuild, generate_report_text, hp, hr,
      setup_compliance_analysis_chain, hinit]
  · intro e hinit hcall
    simp [generate_compliance_report, genRebuild, generate_report_text, hp, hr,
      setup_compliance_analysis_chain, hinit, retrievedPolicyContext,
      retrievedRegulatoryContext] at hcall ⊢
    simp [hcall]

theorem claim_C6_witness :
    readyTool.policy_vector_store = some ⟨[⟨"pol/t.pdf", 0, "p1"⟩]⟩ ∧
    readyTool.regulatory_vector_store = some ⟨[⟨"reg/r.pdf", 0, "gamma"⟩]⟩ ∧
    envLLMFail.llm_init = true ∧
    envLLMFail.llm_call (formatPrompt
      (retrievedRegulatoryContext envLLMFail ⟨[⟨"reg/r.pdf", 0, "gamma"⟩]⟩)
      (retrievedPolicyContext envLLMFail ⟨[⟨"pol/t.pdf", 0, "p1"⟩]⟩)) =
        .error "boom" ∧
    (generate_compliance_report envLLMFail emptyFS readyTool).2.2 =
      errGenPrefix ++ "boom" :=
  ⟨rfl, rfl, rfl, rfl,
   (claim_C6 envLLMFail emptyFS readyTool ⟨[⟨"pol/t.pdf", 0, "p1"⟩]⟩
      ⟨[⟨"reg/r.pdf", 0, "gamma"⟩]⟩ rfl rfl).2 "boom" rfl rfl⟩

/-- C9: when both indexes are present and the LLM initializes, the report
is exactly the model's answer to `formatPrompt rc pc`, where `pc` and
`rc` are the space-joins of the two retrieved chunk-text sequences — and
`formatPrompt rc pc` is the fixed instruction template with precisely the
two named slots `regulatory_context` and `policy_context` filled with
those two strings, so the prompt is a pure function of the two retrieved
chunk-text sequences with no other free parameters. -/
theorem claim_C9 (env : Env) (fs : FS) (st : Tool) (pvs rvs : VectorStore)
    (hp : st.policy_vector_store = some pvs)
    (hr : st.regulatory_vector_store = some rvs)
    (hinit : env.llm_init = true) :
    ((generate_compliance_report env fs st).2.2 =
      match env.llm_call (formatPrompt (retrievedRegulatoryContext env rvs)
          (retrievedPolicyContext env pvs)) with
      | .ok report => report
      | .error e => errGenPrefix ++ e) ∧
    formatPrompt (retrievedRegulatoryContext env rvs)
        (retrievedPolicyContext env pvs) =
      tmpl_pre ++ retrievedRegulatoryContext env rvs ++ tmpl_mid ++
        retrievedPolicyContext env pvs ++ tmpl_post ∧
    compliance_template =
      tmpl_pre ++ "{regulatory_context}" ++ tmpl_mid ++
        "{policy_context}" ++ tmpl_post ∧
    compliancePrompt.input_variables = ["regulatory_context", "policy_context"] := by
  refine ⟨?_, rfl, rfl, rfl⟩
  cases hcall : env.llm_call (formatPrompt (retrievedRegulatoryContext env rvs)
      (retrievedPolicyContext env pvs)) with
  | ok report =>
    simp [generate_compliance_report, genRebuild, generate_report_text, hp, hr,
      setup_compliance_analysis_chain, hinit, retrievedPolicyContext,
      retrievedRegulatoryContext] at hcall ⊢
    simp [hcall]
  | error e =>
    simp [generate_compliance_report, genRebuild, generate_report_text, hp, hr,
      setup_compliance_analysis_chain, hinit, retrievedPolicyContext,
      retrievedRegulatoryContext] at hcall ⊢
    simp [hcall]

theorem claim_C9_witness :
    readyTool.policy_vector_store = some ⟨[⟨"pol/t.pdf", 0, "p1"⟩]⟩ ∧
    readyTool.regulatory_vector_store = some ⟨[⟨"reg/r.pdf", 0, "gamma"⟩]⟩ ∧
    sampleEnv.llm_init = true ∧
    ((generate_compliance_report sampleEnv emptyFS readyTool).2.2 =
      match sampleEnv.llm_call (formatPrompt
          (retrievedRegulatoryContext sampleEnv ⟨[⟨"reg/r.pdf", 0, "gamma"⟩]⟩)
          (retrievedPolicyContext sampleEnv ⟨[⟨"pol/t.pdf", 0, "p1"⟩]⟩)) with
      | .ok report => report
      | .error e => errGenPrefix ++ e) :=
  ⟨rfl, rfl, rfl,
   (claim_C9 sampleEnv emptyFS readyTool ⟨[⟨"pol/t.pdf", 0, "p1"⟩]⟩
      ⟨[⟨"reg/r.pdf", 0, "gamma"⟩]⟩ rfl rfl rfl).1⟩

/-- C10, corrected.  `load_documents` and `split_documents` raise
`ValueError` on every invalid category, before any state is touched (the
`Except.error` result carries no new state).  `create_vector_store`
checks `self.embeddings is None` before validating the category, so on an
invalid category it raises `ValueError` only when embeddings are
available; when they are not it returns `None` with the state unchanged.
Either way both document collections and both indexes are unchanged. -/
theorem claim_C10 (env : Env) (fs : FS) (st : Tool) (dt : String)
    (c o : Nat) (chunksArg : Option (List Document))
    (hp : dt ≠ "policy") (hr : dt ≠ "regulatory") :
    load_documents fs st dt = .error valueErrorMsg ∧
    split_documents st dt c o = .error valueErrorMsg ∧
    (st.embeddings ≠ none →
      create_vector_store env st dt chunksArg = .error valueErrorMsg) ∧
    (st.embeddings = none →
      create_vector_store env st dt chunksArg = .ok (st, none)) := by
  refine ⟨?_, ?_, fun hemb => ?_, fun hemb => ?_⟩
  · simp [load_documents, hp, hr]
  · simp [split_documents, hp, hr]
  · simp [create_vector_store, hp, hr, Option.isNone_iff_eq_none, hemb]
  · simp [create_vector_store, hp, hr, Option.isNone_iff_eq_none, hemb]

/-- C10 counterexample: the claim says `create_vector_store` raises
`ValueError` for every invalid `document_type`; but when the embeddings
handle is `None` it returns `None` (no exception), because the
embeddings check at line 125 precedes the category validation at
lines 130-135. -/
theorem claim_C10_counterexample :
    create_vector_store sampleEnv toolNoEmbeddings "invalid" none =
      .ok (toolNoEmbeddings, none) := rfl

theorem claim_C10_witness :
    ("invalid" ≠ "policy" ∧ "invalid" ≠ "regulatory") ∧
    load_documents emptyFS sampleTool "invalid" = .error valueErrorMsg ∧
    split_documents sampleTool "invalid" 1000 200 = .error valueErrorMsg ∧
    (sampleTool.embeddings ≠ none →
      create_vector_store sampleEnv sampleTool "invalid" none =
        .error valueErrorMsg) ∧
    (sampleTool.embeddings = none →
      create_vector_store sampleEnv sampleTool "invalid" none =
        .ok (sampleTool, none)) :=
  ⟨⟨by decide, by decide⟩,
   claim_C10 sampleEnv emptyFS sampleTool "invalid" 1000 200 none
     (by decide) (by decide)⟩

/-- C2 (amended): with the policy index present and the regulatory side
holding zero documents, `generate_compliance_report` triggers the lazy
rebuild for the regulatory side — observable as the reloaded (empty)
regulatory collection, and as the created folder when it was absent — and
the re-index yields nothing for the empty chunk list, so the fixed
DEGRADED error string of line 269 is returned: never a partial report,
and the model function is total, so never an exception.  The string asks
to ensure both policy and regulatory documents are loaded; it does not
single out the regulatory side as the deficient one (see
`claim_C2_counterexample`). -/
theorem claim_C2 (env : Env) (fs : FS) (st : Tool) (pvs : VectorStore)
    (hp : st.policy_vector_store = some pvs)
    (hr : st.regulatory_vector_store = none) :
    (∀ entries, fsLookup fs st.regulatory_documents_folder = some entries →
      entries.filter goodEntry = [] →
      generate_compliance_report env fs st =
        (fs, { st with regulatory_documents := [] }, errNoStores)) ∧
    (fsLookup fs st.regulatory_documents_folder = none →
      generate_compliance_report env fs st =
        (fsCreate fs st.regulatory_documents_folder,
         { st with regulatory_documents := [] }, errNoStores)) := by
  have hch : effectiveChunks { st with regulatory_documents := [] }
      "regulatory" none = [] := by
    simp [effectiveChunks, selectedDocs, split_core]
  have hcreate : create_vector_store_valid env
      { st with regulatory_documents := [] } false none =
      ({ st with regulatory_documents := [] }, none) := by
    obtain ⟨he, h2, h3, h4⟩ := create_valid_cases env
      { st with regulatory_documents := [] } "regulatory" false
      (Or.inr ⟨rfl, rfl⟩) none
    by_cases hemb : st.embeddings = none
    · exact he hemb
    · exact h2 hemb hch
  rw [hp, hr] at hcreate
  constructor
  · intro entries hfold hzero
    have hload : load_total fs st false =
        (fs, { st with regulatory_documents := [] }, 0) := by
      simp [load_total, Tool.folderOf, hfold, process_entries_eq, hzero]
    simp [generate_compliance_report, genRebuild, generate_report_text, hp, hr,
      hload, hcreate]
  · intro hfold
    have hload : load_total fs st false =
        (fsCreate fs st.regulatory_documents_folder,
         { st with regulatory_documents := [] }, 0) := by
      simp [load_total, Tool.folderOf, hfold]
    simp [generate_compliance_report, genRebuild, generate_report_text, hp, hr,
      hload, hcreate]

/-- C2 counterexample: the claim says the DEGRADED string "names the
regulatory side as the deficient one", but the identical string is
returned when the policy side is the deficient one instead — the message
(line 269) asks for both sides and does not single one out. -/
theorem claim_C2_counterexample :
    (generate_compliance_report sampleEnv emptyFS regMissingTool).2.2 =
      errNoStores ∧
    (generate_compliance_report sampleEnv emptyFS polMissingTool).2.2 =
      errNoStores ∧
    (generate_compliance_report sampleEnv emptyFS regMissingTool).2.2 =
      (generate_compliance_report sampleEnv emptyFS polMissingTool).2.2 :=
  ⟨rfl, rfl, rfl⟩

theorem claim_C2_witness :
    regMissingTool.policy_vector_store = some ⟨[⟨"pol/t.pdf", 0, "p1"⟩]⟩ ∧
    regMissingTool.regulatory_vector_store = none ∧
    fsLookup emptyFS regMissingTool.regulatory_documents_folder = some [] ∧
    List.filter goodEntry [] = [] ∧
    generate_compliance_report sampleEnv emptyFS regMissingTool =
      (emptyFS, { regMissingTool with regulatory_documents := [] },
       errNoStores) :=
  ⟨rfl, rfl, rfl, rfl,
   (claim_C2 sampleEnv emptyFS regMissingTool ⟨[⟨"pol/t.pdf", 0, "p1"⟩]⟩
      rfl rfl).1 [] rfl rfl⟩

/-! ### The splitter: chunk length bound and overlap of consecutive chunks -/

/-- Consecutive pairs of a mapped list are the mapped consecutive pairs. -/
theorem zip_tail_map {α β : Type} (f : α → β) (l : List α) :
    (l.map f).zip (l.map f).tail = (l.zip l.tail).map (Prod.map f f) := by
  rw [← List.map_tail, List.zip_map]

/-- Any fuel of at least `t.length` gives the same chunks. -/
theorem slidingChunksGo_congr (s C : Nat) :
    ∀ f1 f2 (t : List Char), t.length ≤ f1 → t.length ≤ f2 →
      slidingChunksGo s C f1 t = slidingChunksGo s C f2 t := by
  intro f1
  induction f1 with
  | zero =>
    intro f2 t h1 h2
    have ht : t.length = 0 := by omega
    have hC : t.length ≤ C := by omega
    cases f2 with
    | zero => rfl
    | succ f2 => simp [slidingChunksGo, if_pos hC]
  | succ f1 ih =>
    intro f2 t h1 h2
    cases f2 with
    | zero =>
      have hC : t.length ≤ C := by omega
      simp [slidingChunksGo, if_pos hC]
    | succ f2 =>
      by_cases hC : t.length ≤ C
      · simp [slidingChunksGo, if_pos hC]
      · have hlt : ¬ t.length = 0 := by omega
        simp only [slidingChunksGo, if_neg hC]
        rw [ih f2 (t.drop (s + 1)) (by simp only [List.length_drop]; omega)
          (by simp only [List.length_drop]; omega)]

/-- The recursive unfolding of `slidingChunks`: one segment if the text
fits in `chunk_size`, else a full segment and the chunks of the text
shifted by `s + 1`. -/
theorem slidingChunks_eq (s C : Nat) (t : List Char) :
    slidingChunks s C t =
      if t.length ≤ C then [t]
      else t.take C :: slidingChunks s C (t.drop (s + 1)) := by
  unfold slidingChunks
  cases hl : t.length with
  | zero =>
    simp [slidingChunksGo, Nat.zero_le]
  | succ n =>
    simp only [slidingChunksGo]
    rw [hl]
    by_cases hC : n + 1 ≤ C
    · rw [if_pos hC, if_pos hC]
    · rw [if_neg hC, if_neg hC]
      rw [slidingChunksGo_congr s C n (t.drop (s + 1)).length (t.drop (s + 1))
        (by simp only [List.length_drop]; omega) le_rfl]

theorem slidingChunks_ne_nil (s C : Nat) (t : List Char) :
    slidingChunks s C t ≠ [] := by
  rw [slidingChunks_eq]
  split <;> simp

/-- The first chunk of `slidingChunks`. -/
theorem slidingChunks_head (s C : Nat) (t : List Char) :
    ∃ rest, slidingChunks s C t =
      (if t.length ≤ C then t else t.take C) :: rest := by
  by_cases h : t.length ≤ C
  · exact ⟨[], by rw [slidingChunks_eq, if_pos h, if_pos h]⟩
  · exact ⟨_, by rw [slidingChunks_eq, if_neg h, if_neg h]⟩

/-- Every chunk has at most `C` characters. -/
theorem slidingChunks_length_le (s C : Nat) (t : List Char) :
    ∀ c ∈ slidingChunks s C t, c.length ≤ C := by
  have H : ∀ n (t : List Char), t.length ≤ n →
      ∀ c ∈ slidingChunks s C t, c.length ≤ C := by
    intro n
    induction n with
    | zero =>
      intro t ht c hc
      rw [slidingChunks_eq, if_pos (by omega : t.length ≤ C)] at hc
      simp only [List.mem_singleton] at hc
      subst hc
      omega
    | succ n ih =>
      intro t ht c hc
      by_cases h : t.length ≤ C
      · rw [slidingChunks_eq, if_pos h] at hc
        simp only [List.mem_singleton] at hc
        subst hc
        exact h
      · rw [slidingChunks_eq, if_neg h] at hc
        rcases List.mem_cons.mp hc with hc | hc
        · subst hc
          simp only [List.length_take]
          omega
        · exact ih (t.drop (s + 1)) (by simp only [List.length_drop]; omega) c hc
  exact H t.length t le_rfl

/-- Consecutive chunks: the earlier one is full (`C` characters), and its
final `O` characters are exactly the first `O` characters of the next
one, which has more than `O` characters. -/
theorem slidingChunks_pairs (C O : Nat) (hO : O < C) (t : List Char) :
    ∀ p ∈ (slidingChunks (C - O - 1) C t).zip
        (slidingChunks (C - O - 1) C t).tail,
      p.1.length = C ∧ p.1.drop (C - O) = p.2.take O ∧ O < p.2.length := by
  have hstep : C - O - 1 + 1 = C - O := by omega
  have H : ∀ n (t : List Char), t.length ≤ n →
      ∀ p ∈ (slidingChunks (C - O - 1) C t).zip
          (slidingChunks (C - O - 1) C t).tail,
        p.1.length = C ∧ p.1.drop (C - O) = p.2.take O ∧ O < p.2.length := by
    intro n
    induction n with
    | zero =>
      intro t ht p hp
      rw [slidingChunks_eq, if_pos (by omega : t.length ≤ C)] at hp
      simp at hp
    | succ n ih =>
      intro t ht p hp
      by_cases h : t.length ≤ C
      · rw [slidingChunks_eq, if_pos h] at hp
        simp at hp
      · rw [slidingChunks_eq, if_neg h, hstep] at hp
        obtain ⟨rest, hb⟩ := slidingChunks_head (C - O - 1) C (t.drop (C - O))
        have hlen' : (t.drop (C - O)).length = t.length - (C - O) :=
          List.length_drop _ _
        rw [List.tail_cons, hb, List.zip_cons_cons] at hp
        rcases List.mem_cons.mp hp with hp | hp
        · subst hp
          dsimp only
          have hO' : O < (t.drop (C - O)).length := by rw [hlen']; omega
          constructor
          · simp only [List.length_take]
            omega
          constructor
          · rw [List.drop_take]
            have : C - (C - O) = O := by omega
            rw [this]
            by_cases h2 : (t.drop (C - O)).length ≤ C
            · rw [if_pos h2]
            · rw [if_neg h2, List.take_take, min_eq_left (le_of_lt hO)]
          · by_cases h2 : (t.drop (C - O)).length ≤ C
            · rw [if_pos h2]
              omega
            · rw [if_neg h2]
              simp only [List.length_take]
              omega
        · have hrec := ih (t.drop (C - O)) (by omega) p
          rw [hb, List.tail_cons] at hrec
          exact hrec hp
  exact H t.length t le_rfl

/-- C4: for a valid category with a non-empty collection and O < C,
`split_documents` returns (no exception) the in-order concatenation of
each document's chunk list, every chunk has at most C characters, and
for each document every pair of consecutive chunks overlaps in exactly
its final/leading O characters — so consecutive chunks from the same
source share at least O characters (the final chunk of a document is the
second component of the last pair and is covered too). -/
theorem claim_C4 (st : Tool) (dt : String) (C O : Nat) (hO : O < C)
    (hdt : dt = "policy" ∨ dt = "regulatory")
    (hne : selectedDocs st dt ≠ []) :
    split_documents st dt C O =
      .ok ((selectedDocs st dt).flatMap (splitDoc C O)) ∧
    ∀ d ∈ selectedDocs st dt,
      (∀ c ∈ splitDoc C O d, c.page_content.length ≤ C) ∧
      ∀ p ∈ (splitDoc C O d).zip (splitDoc C O d).tail,
        p.1.page_content.length = C ∧
        p.1.page_content.data.drop (p.1.page_content.length - O) =
          p.2.page_content.data.take O ∧
        O < p.2.page_content.length := by
  constructor
  · rcases hdt with h | h <;> subst h <;>
      simp_all [split_documents, split_core, selectedDocs]
  · intro d _
    constructor
    · intro c hc
      obtain ⟨cs, hcs, hc⟩ := List.mem_map.mp hc
      subst hc
      exact slidingChunks_length_le _ C d.page_content.data cs hcs
    · intro p hp
      unfold splitDoc at hp
      rw [zip_tail_map] at hp
      obtain ⟨q, hq, hpq⟩ := List.mem_map.mp hp
      obtain ⟨q1, q2⟩ := q
      obtain ⟨h1, h2, h3⟩ :=
        slidingChunks_pairs C O hO d.page_content.data (q1, q2) hq
      subst hpq
      have h1' : q1.length = C := h1
      have h2' : q1.drop (C - O) = q2.take O := h2
      have h3' : O < q2.length := h3
      refine ⟨h1', ?_, h3'⟩
      show q1.drop (q1.length - O) = q2.take O
      rw [h1']
      exact h2'

theorem claim_C4_witness :
    (2 < 5 ∧ ("policy" = "policy" ∨ "policy" = "regulatory") ∧
      selectedDocs splitSampleTool "policy" ≠ []) ∧
    split_documents splitSampleTool "policy" 5 2 =
      .ok [⟨"pol/t.pdf", 0, "abcde"⟩, ⟨"pol/t.pdf", 0, "defgh"⟩,
           ⟨"pol/t.pdf", 0, "ghij"⟩] ∧
    (split_documents splitSampleTool "policy" 5 2 =
       .ok ((selectedDocs splitSampleTool "policy").flatMap (splitDoc 5 2)) ∧
     ∀ d ∈ selectedDocs splitSampleTool "policy",
       (∀ c ∈ splitDoc 5 2 d, c.page_content.length ≤ 5) ∧
       ∀ p ∈ (splitDoc 5 2 d).zip (splitDoc 5 2 d).tail,
         p.1.page_content.length = 5 ∧
         p.1.page_content.data.drop (p.1.page_content.length - 2) =
           p.2.page_content.data.take 2 ∧
         2 < p.2.page_content.length) :=
  ⟨⟨by decide, Or.inl rfl, by decide⟩, rfl,
   claim_C4 splitSampleTool "policy" 5 2 (by decide) (Or.inl rfl) (by decide)⟩

/-! ### Separation: provenance of every document in collections and
indexes, preserved by every operation -/

/-- Splitting a list at a separator-free tail is unique. -/
theorem sep_append_inj :
    ∀ (x y a b : List Char), '/' ∉ x → '/' ∉ y →
      x ++ '/' :: a = y ++ '/' :: b → x = y ∧ a = b := by
  intro x
  induction x with
  | nil =>
    intro y a b _ hy h
    cases y with
    | nil => simpa using h
    | cons c y' =>
      simp only [List.nil_append, List.cons_append, List.cons.injEq] at h
      rw [← h.1] at hy
      simp at hy
  | cons c x' ih =>
    intro y a b hx hy h
    cases y with
    | nil =>
      simp only [List.cons_append, List.nil_append, List.cons.injEq] at h
      rw [h.1] at hx
      simp at hx
    | cons d y' =>
      simp only [List.cons_append, List.cons.injEq] at h
      obtain ⟨hcd, htail⟩ := h
      have hx' : '/' ∉ x' := fun hm => hx (List.mem_cons_of_mem _ hm)
      have hy' : '/' ∉ y' := fun hm => hy (List.mem_cons_of_mem _ hm)
      obtain ⟨hxy, hab⟩ := ih y' a b hx' hy' htail
      exact ⟨by rw [hcd, hxy], hab⟩

/-- A path `folder ++ "/" ++ name` with a separator-free name determines
the folder and the name. -/
theorem folder_join_inj (p q fn fn' : String)
    (hfn : '/' ∉ fn.data) (hfn' : '/' ∉ fn'.data)
    (h : p ++ "/" ++ fn = q ++ "/" ++ fn') : p = q ∧ fn = fn' := by
  have hd : p.data ++ '/' :: fn.data = q.data ++ '/' :: fn'.data := by
    have h2 := congrArg String.data h
    simpa [String.data_append] using h2
  have hrev : fn.data.reverse ++ '/' :: p.data.reverse =
      fn'.data.reverse ++ '/' :: q.data.reverse := by
    have h2 := congrArg List.reverse hd
    simpa [List.reverse_append] using h2
  obtain ⟨h1, h2⟩ := sep_append_inj _ _ _ _
    (by simpa using hfn) (by simpa using hfn') hrev
  constructor
  · apply String.ext
    exact List.reverse_injective h2
  · apply String.ext
    exact List.reverse_injective h1

/-- A successful folder lookup comes from an entry of the filesystem. -/
theorem fsLookup_mem :
    ∀ (fs : FS) (f : String) (es : List FileEntry),
      fsLookup fs f = some es → (f, es) ∈ fs := by
  intro fs f es
  induction fs with
  | nil => intro h; simp [fsLookup, List.lookup] at h
  | cons p rest ih =>
    intro h
    rw [fsLookup, List.lookup] at h
    cases hk : (f == p.1) with
    | false =>
      simp only [hk] at h
      exact List.mem_cons_of_mem _ (ih h)
    | true =>
      simp only [hk] at h
      cases h
      have hpf : f = p.1 := eq_of_beq hk
      rw [hpf]
      exact List.mem_cons_self _ _

/-- Creating a folder adds only an empty listing. -/
theorem FSok_fsCreate (fs : FS) (f : String) (h : FSok fs) :
    FSok (fsCreate fs f) := by
  intro p hp e he
  rcases List.mem_cons.mp hp with hp | hp
  · subst hp
    simp at he
  · exact h p hp e he

/-- Every document the directory loop produces was loaded from the
folder: its source is the folder, the separator, and a base name from
the listing. -/
theorem process_entries_inFolder (fs : FS) (folder : String)
    (entries : List FileEntry) (hok : FSok fs)
    (hl : fsLookup fs folder = some entries) :
    ∀ d ∈ (process_entries folder entries).1, inFolder folder d := by
  intro d hd
  rw [process_entries_eq] at hd
  obtain ⟨e, he, hd⟩ := List.mem_flatMap.mp hd
  have hef : e ∈ entries := List.mem_of_mem_filter he
  have hfn : '/' ∉ e.filename.data :=
    hok (folder, entries) (fsLookup_mem fs folder entries hl) e hef
  rcases hpe : e.pdf_pages with _ | pages
  · simp [docsOfEntry, hpe] at hd
  · simp only [docsOfEntry, hpe, entryDocs] at hd
    obtain ⟨pi, _, hd⟩ := List.mem_map.mp hd
    subst hd
    exact ⟨e.filename, hfn, rfl⟩

/-- Chunks keep the source path of the document they come from. -/
theorem split_core_source (docs : List Document) (C O : Nat) :
    ∀ c ∈ split_core docs C O, ∃ d ∈ docs, c.source = d.source := by
  intro c hc
  unfold split_core at hc
  split at hc
  · simp at hc
  · obtain ⟨d, hd, hc⟩ := List.mem_flatMap.mp hc
    unfold splitDoc at hc
    obtain ⟨cs, _, hc⟩ := List.mem_map.mp hc
    subst hc
    exact ⟨d, hd, rfl⟩

theorem inFolder_of_source (f : String) (c d : Document)
    (h : c.source = d.source) (hd : inFolder f d) : inFolder f c := by
  obtain ⟨fn, hfn, hsrc⟩ := hd
  exact ⟨fn, hfn, h.trans hsrc⟩

/-- `load_documents` (valid category) preserves the separation
invariant. -/
theorem load_total_inv (pf rf : String) (fs : FS) (st : Tool) (b : Bool)
    (h : Inv pf rf fs st) :
    Inv pf rf (load_total fs st b).1 (load_total fs st b).2.1 := by
  obtain ⟨hfs, hpf, hrf, hpd, hrd, hps, hrs⟩ := h
  cases b
  · cases hl : fsLookup fs st.regulatory_documents_folder with
    | none =>
      have heq : load_total fs st false =
          (fsCreate fs st.regulatory_documents_folder,
           { st with regulatory_documents := [] }, 0) := by
        simp [load_total, Tool.folderOf, hl]
      rw [heq]
      exact ⟨FSok_fsCreate fs _ hfs, hpf, hrf, hpd, by simp, hps, hrs⟩
    | some entries =>
      have heq : load_total fs st false =
          (fs,
           { st with regulatory_documents :=
               (process_entries st.regulatory_documents_folder entries).1 },
           (process_entries st.regulatory_documents_folder entries).2) := by
        simp [load_total, Tool.folderOf, hl]
      rw [heq]
      refine ⟨hfs, hpf, hrf, hpd, ?_, hps, hrs⟩
      intro d hd
      have hin := process_entries_inFolder fs st.regulatory_documents_folder
        entries hfs hl d hd
      rwa [hrf] at hin
  · cases hl : fsLookup fs st.policy_documents_folder with
    | none =>
      have heq : load_total fs st true =
          (fsCreate fs st.policy_documents_folder,
           { st with policy_documents := [] }, 0) := by
        simp [load_total, Tool.folderOf, hl]
      rw [heq]
      exact ⟨FSok_fsCreate fs _ hfs, hpf, hrf, by simp, hrd, hps, hrs⟩
    | some entries =>
      have heq : load_total fs st true =
          (fs,
           { st with policy_documents :=
               (process_entries st.policy_documents_folder entries).1 },
           (process_entries st.policy_documents_folder entries).2) := by
        simp [load_total, Tool.folderOf, hl]
      rw [heq]
      refine ⟨hfs, hpf, hrf, ?_, hrd, hps, hrs⟩
      intro d hd
      have hin := process_entries_inFolder fs st.policy_documents_folder
        entries hfs hl d hd
      rwa [hpf] at hin

/-- `create_vector_store` (valid category, defaulted chunks) preserves
the separation invariant: the only state change is the own-side index,
rebuilt from the own-side collection. -/
theorem create_valid_inv (env : Env) (pf rf : String) (fs : FS) (st : Tool)
    (b : Bool) (h : Inv pf rf fs st) :
    Inv pf rf fs (create_vector_store_valid env st b none).1 := by
  obtain ⟨hfs, hpf, hrf, hpd, hrd, hps, hrs⟩ := h
  cases b
  · obtain ⟨he, h2, h3, h4⟩ :=
      create_valid_cases env st "regulatory" false (Or.inr ⟨rfl, rfl⟩) none
    by_cases hemb : st.embeddings = none
    · rw [he hemb]
      exact ⟨hfs, hpf, hrf, hpd, hrd, hps, hrs⟩
    · by_cases hch : effectiveChunks st "regulatory" none = []
      · rw [h2 hemb hch]
        exact ⟨hfs, hpf, hrf, hpd, hrd, hps, hrs⟩
      · cases hok : env.chroma_ok (effectiveChunks st "regulatory" none) with
        | false =>
          rw [h3 hemb hch hok]
          exact ⟨hfs, hpf, hrf, hpd, hrd, hps, hrs⟩
        | true =>
          rw [h4 hemb hch hok]
          refine ⟨hfs, hpf, hrf, hpd, hrd, hps, ?_⟩
          intro d hd
          have hech : effectiveChunks st "regulatory" none =
              split_core st.regulatory_documents 1000 200 := by
            simp [effectiveChunks, selectedDocs]
          rw [hech] at hd
          obtain ⟨d0, hd0, hsrc⟩ :=
            split_core_source st.regulatory_documents 1000 200 d hd
          exact inFolder_of_source rf d d0 hsrc (hrd d0 hd0)
  · obtain ⟨he, h2, h3, h4⟩ :=
      create_valid_cases env st "policy" true (Or.inl ⟨rfl, rfl⟩) none
    by_cases hemb : st.embeddings = none
    · rw [he hemb]
      exact ⟨hfs, hpf, hrf, hpd, hrd, hps, hrs⟩
    · by_cases hch : effectiveChunks st "policy" none = []
      · rw [h2 hemb hch]
        exact ⟨hfs, hpf, hrf, hpd, hrd, hps, hrs⟩
      · cases hok : env.chroma_ok (effectiveChunks st "policy" none) with
        | false =>
          rw [h3 hemb hch hok]
          exact ⟨hfs, hpf, hrf, hpd, hrd, hps, hrs⟩
        | true =>
          rw [h4 hemb hch hok]
          refine ⟨hfs, hpf, hrf, hpd, hrd, ?_, hrs⟩
          intro d hd
          have hech : effectiveChunks st "policy" none =
              split_core st.policy_documents 1000 200 := by
            simp [effectiveChunks, selectedDocs]
          rw [hech] at hd
          obtain ⟨d0, hd0, hsrc⟩ :=
            split_core_source st.policy_documents 1000 200 d hd
          exact inFolder_of_source pf d d0 hsrc (hpd d0 hd0)

/-- One lazy-rebuild step (reload then re-index one side) preserves the
separation invariant. -/
theorem rebuild_step_inv (env : Env) (pf rf : String) (fs : FS) (st : Tool)
    (b : Bool) (h : Inv pf rf fs st) :
    Inv pf rf (load_total fs st b).1
      (create_vector_store_valid env (load_total fs st b).2.1 b none).1 :=
  create_valid_inv env pf rf (load_total fs st b).1 (load_total fs st b).2.1 b
    (load_total_inv pf rf fs st b h)

/-- The rebuild prelude of `generate_compliance_report` preserves the
separation invariant. -/
theorem genRebuild_inv (env : Env) (pf rf : String) (fs : FS) (st : Tool)
    (h : Inv pf rf fs st) :
    Inv pf rf (genRebuild env fs st).1 (genRebuild env fs st).2 := by
  unfold genRebuild
  by_cases hp : st.policy_vector_store.isNone
  · have ha := rebuild_step_inv env pf rf fs st true h
    by_cases hr2 : (create_vector_store_valid env (load_total fs st true).2.1
        true none).1.regulatory_vector_store.isNone
    · simp only [hp, if_true, hr2]
      exact rebuild_step_inv env pf rf _ _ false ha
    · simp only [hp, if_true, hr2, if_false]
      exact ha
  · by_cases hr2 : st.regulatory_vector_store.isNone
    · simp only [hp, Bool.false_eq_true, if_false, hr2, if_true]
      exact rebuild_step_inv env pf rf fs st false h
    · simp only [hp, Bool.false_eq_true, if_false, hr2]
      exact h

/-- Every public operation preserves the separation invariant. -/
theorem execOp_inv (env : Env) (pf rf : String) (p : FS × Tool) (op : Op)
    (h : Inv pf rf p.1 p.2) :
    Inv pf rf (execOp env p op).1 (execOp env p op).2 := by
  obtain ⟨fs, st⟩ := p
  cases op with
  | load dt =>
    by_cases h1 : dt = "policy"
    · subst h1
      simp only [execOp, load_documents, if_pos rfl]
      exact load_total_inv pf rf fs st true h
    · by_cases h2 : dt = "regulatory"
      · subst h2
        simp only [execOp, load_documents, if_neg h1, if_pos rfl]
        exact load_total_inv pf rf fs st false h
      · simp only [execOp, load_documents, if_neg h1, if_neg h2]
        exact h
  | split dt c o => exact h
  | create dt =>
    by_cases h1 : dt = "policy"
    · subst h1
      have hok := (create_vector_store_ok env st none).1
      have hval : create_vector_store env st "policy" none =
          .ok (create_vector_store_valid env st true none) := hok
      simp only [execOp, hval]
      exact create_valid_inv env pf rf fs st true h
    · by_cases h2 : dt = "regulatory"
      · subst h2
        have hval : create_vector_store env st "regulatory" none =
            .ok (create_vector_store_valid env st false none) :=
          (create_vector_store_ok env st none).2
        simp only [execOp, hval]
        exact create_valid_inv env pf rf fs st false h
      · by_cases hemb : st.embeddings.isNone
        · have hval : create_vector_store env st dt none = .ok (st, none) := by
            simp [create_vector_store, hemb]
          simp only [execOp, hval]
          exact h
        · have hval : create_vector_store env st dt none =
              .error valueErrorMsg := by
            simp [create_vector_store, h1, h2, hemb]
          simp only [execOp, hval]
          exact h
  | report =>
    have hinv := genRebuild_inv env pf rf fs st h
    exact hinv

/-- The separation invariant holds after any sequence of operations. -/
theorem run_inv (env : Env) (pf rf : String) (ops : List Op) :
    ∀ p : FS × Tool, Inv pf rf p.1 p.2 →
      Inv pf rf (run env p ops).1 (run env p ops).2 := by
  induction ops with
  | nil => intro p h; exact h
  | cons op rest ih =>
    intro p h
    exact ih (execOp env p op) (execOp_inv env pf rf p op h)

/-- A freshly constructed instance satisfies the separation invariant. -/
theorem init_inv (env : Env) (pf rf : String) (fs : FS) (hok : FSok fs) :
    Inv pf rf fs (Tool.init env pf rf) :=
  ⟨hok, rfl, rfl, fun d hd => absurd hd (List.not_mem_nil d),
   fun d hd => absurd hd (List.not_mem_nil d), trivial, trivial⟩

/-- `load_documents` never touches either vector store. -/
theorem load_total_frame (fs : FS) (st : Tool) (b : Bool) :
    (load_total fs st b).2.1.policy_vector_store = st.policy_vector_store ∧
    (load_total fs st b).2.1.regulatory_vector_store =
      st.regulatory_vector_store := by
  cases b <;> (unfold load_total Tool.folderOf; dsimp only; split <;> simp)

/-- `create_vector_store` (valid category) writes only the selected
side's attributes: collections, folders, embeddings and the other side's
store are untouched. -/
theorem create_total_frame (env : Env) (st : Tool) (b : Bool)
    (ch : Option (List Document)) :
    ((create_vector_store_total env st b ch).1.policy_documents =
        st.policy_documents ∧
      (create_vector_store_total env st b ch).1.regulatory_documents =
        st.regulatory_documents ∧
      (create_vector_store_total env st b ch).1.policy_documents_folder =
        st.policy_documents_folder ∧
      (create_vector_store_total env st b ch).1.regulatory_documents_folder =
        st.regulatory_documents_folder ∧
      (create_vector_store_total env st b ch).1.embeddings = st.embeddings) ∧
    (b = true →
      (create_vector_store_total env st b ch).1.regulatory_vector_store =
        st.regulatory_vector_store) ∧
    (b = false →
      (create_vector_store_total env st b ch).1.policy_vector_store =
        st.policy_vector_store) := by
  cases b <;> (unfold create_vector_store_total create_core; cases ch <;>
    (dsimp only; split_ifs <;> simp_all))

/-- C1: category separation.  (i) `create_vector_store('policy')` writes
only the policy index attribute (the regulatory index and both
collections are unchanged), (ii) symmetrically for 'regulatory',
(iii) `load_documents` never writes either index, and (iv) after every
sequence of operations on a fresh instance (over a filesystem whose
listings hold base names, as `os.listdir` yields), each collection and
each index holds only documents loaded from its own category's folder —
so, the two folders being distinct, no document is ever in both indexes:
the two categories are never embedded into the same index and never
merged. -/
theorem claim_C1 :
    (∀ (env : Env) (st : Tool) (ch : Option (List Document)) (st' : Tool)
        (r : Option VectorStore),
      create_vector_store env st "policy" ch = .ok (st', r) →
      st'.regulatory_vector_store = st.regulatory_vector_store ∧
      st'.policy_documents = st.policy_documents ∧
      st'.regulatory_documents = st.regulatory_documents) ∧
    (∀ (env : Env) (st : Tool) (ch : Option (List Document)) (st' : Tool)
        (r : Option VectorStore),
      create_vector_store env st "regulatory" ch = .ok (st', r) →
      st'.policy_vector_store = st.policy_vector_store ∧
      st'.policy_documents = st.policy_documents ∧
      st'.regulatory_documents = st.regulatory_documents) ∧
    (∀ (fs : FS) (st : Tool) (dt : String) (fs' : FS) (st' : Tool) (n : Nat),
      load_documents fs st dt = .ok (fs', st', n) →
      st'.policy_vector_store = st.policy_vector_store ∧
      st'.regulatory_vector_store = st.regulatory_vector_store) ∧
    (∀ (env : Env) (pf rf : String) (fs : FS) (ops : List Op), FSok fs →
      (∀ d ∈ (run env (fs, Tool.init env pf rf) ops).2.policy_documents,
        inFolder pf d) ∧
      (∀ d ∈ (run env (fs, Tool.init env pf rf) ops).2.regulatory_documents,
        inFolder rf d) ∧
      storeInFolder pf
        (run env (fs, Tool.init env pf rf) ops).2.policy_vector_store ∧
      storeInFolder rf
        (run env (fs, Tool.init env pf rf) ops).2.regulatory_vector_store ∧
      (pf ≠ rf → ∀ (vs vs' : VectorStore) (d : Document),
        (run env (fs, Tool.init env pf rf) ops).2.policy_vector_store =
          some vs →
        (run env (fs, Tool.init env pf rf) ops).2.regulatory_vector_store =
          some vs' →
        d ∈ vs.docs → d ∉ vs'.docs)) := by
  refine ⟨?_, ?_, ?_, ?_⟩
  · intro env st ch st' r h
    unfold create_vector_store at h
    by_cases hemb : st.embeddings.isNone
    · rw [if_pos hemb] at h
      injection h with h
      have hst : st' = st := (congrArg Prod.fst h).symm
      subst hst
      exact ⟨rfl, rfl, rfl⟩
    · rw [if_neg hemb, if_pos rfl] at h
      injection h with h
      have hst : st' = (create_vector_store_total env st true ch).1 :=
        (congrArg Prod.fst h).symm
      subst hst
      obtain ⟨⟨hc1, hc2, -, -, -⟩, hfr, -⟩ := create_total_frame env st true ch
      exact ⟨hfr rfl, hc1, hc2⟩
  · intro env st ch st' r h
    unfold create_vector_store at h
    by_cases hemb : st.embeddings.isNone
    · rw [if_pos hemb] at h
      injection h with h
      have hst : st' = st := (congrArg Prod.fst h).symm
      subst hst
      exact ⟨rfl, rfl, rfl⟩
    · rw [if_neg hemb, if_neg (by decide), if_pos rfl] at h
      injection h with h
      have hst : st' = (create_vector_store_total env st false ch).1 :=
        (congrArg Prod.fst h).symm
      subst hst
      obtain ⟨⟨hc1, hc2, -, -, -⟩, -, hfr⟩ :=
        create_total_frame env st false ch
      exact ⟨hfr rfl, hc1, hc2⟩
  · intro fs st dt fs' st' n h
    unfold load_documents at h
    by_cases h1 : dt = "policy"
    · subst h1
      rw [if_pos rfl] at h
      injection h with h
      have hst : st' = (load_total fs st true).2.1 :=
        (congrArg (fun x => x.2.1) h).symm
      subst hst
      exact load_total_frame fs st true
    · by_cases h2 : dt = "regulatory"
      · subst h2
        rw [if_neg h1, if_pos rfl] at h
        injection h with h
        have hst : st' = (load_total fs st false).2.1 :=
          (congrArg (fun x => x.2.1) h).symm
        subst hst
        exact load_total_frame fs st false
      · rw [if_neg h1, if_neg h2] at h
        exact absurd h (by simp)
  · intro env pf rf fs ops hok
    have hinv := run_inv env pf rf ops (fs, Tool.init env pf rf)
      (init_inv env pf rf fs hok)
    obtain ⟨-, -, -, hpd, hrd, hps, hrs⟩ := hinv
    refine ⟨hpd, hrd, hps, hrs, ?_⟩
    intro hne vs vs' d hvs hvs' hd hd'
    rw [hvs] at hps
    rw [hvs'] at hrs
    obtain ⟨fn, hfn, hsrc⟩ := hps d hd
    obtain ⟨fn', hfn', hsrc'⟩ := hrs d hd'
    exact hne (folder_join_inj pf rf fn fn' hfn hfn'
      (hsrc.symm.trans hsrc')).1

theorem sampleFS_ok : FSok sampleFS := by
  intro p hp e he
  simp only [sampleFS, List.mem_cons, List.not_mem_nil, or_false] at hp
  rcases hp with h | h
  · subst h
    simp only [List.mem_cons, List.not_mem_nil, or_false] at he
    rcases he with h | h | h | h <;> subst h <;> decide
  · subst h
    simp only [List.mem_cons, List.not_mem_nil, or_false] at he
    subst he
    decide

theorem claim_C1_witness :
    FSok sampleFS ∧
    create_vector_store sampleEnv toolLoaded "policy" none =
      .ok (toolIndexed, some ⟨toolLoaded.policy_documents⟩) ∧
    (toolIndexed.regulatory_vector_store = toolLoaded.regulatory_vector_store ∧
     toolIndexed.policy_documents = toolLoaded.policy_documents ∧
     toolIndexed.regulatory_documents = toolLoaded.regulatory_documents) ∧
    ((∀ d ∈ (run sampleEnv (sampleFS, Tool.init sampleEnv "pol" "reg")
          sampleOps).2.policy_documents, inFolder "pol" d) ∧
     (∀ d ∈ (run sampleEnv (sampleFS, Tool.init sampleEnv "pol" "reg")
          sampleOps).2.regulatory_documents, inFolder "reg" d) ∧
     storeInFolder "pol"
       (run sampleEnv (sampleFS, Tool.init sampleEnv "pol" "reg")
          sampleOps).2.policy_vector_store ∧
     storeInFolder "reg"
       (run sampleEnv (sampleFS, Tool.init sampleEnv "pol" "reg")
          sampleOps).2.regulatory_vector_store ∧
     ("pol" ≠ "reg" → ∀ (vs vs' : VectorStore) (d : Document),
       (run sampleEnv (sampleFS, Tool.init sampleEnv "pol" "reg")
          sampleOps).2.policy_vector_store = some vs →
       (run sampleEnv (sampleFS, Tool.init sampleEnv "pol" "reg")
          sampleOps).2.regulatory_vector_store = some vs' →
       d ∈ vs.docs → d ∉ vs'.docs)) :=
  ⟨sampleFS_ok, rfl,
   claim_C1.1 sampleEnv toolLoaded none toolIndexed
     (some ⟨toolLoaded.policy_documents⟩) rfl,
   claim_C1.2.2.2 sampleEnv "pol" "reg" sampleFS sampleOps sampleFS_ok⟩

